import Mathlib

/-!
Shallow embedding of the STM32SD wrapper (`src/SD.cpp`): the unified
file/directory `File` handle, the `SDClass` resolver (`open`, `exists`,
`mkdir`, `openRoot`) and the `File` methods (`read`, `seek`, `position`,
`size`, `available`, `close`, `name`, `openNextFile`, `operator bool`).

The underlying FatFs driver (`f_open`, `f_opendir`, `f_stat`, `f_mkdir`,
`f_read`, `f_lseek`, `f_readdir`, ...) is an external collaborator whose
code is not part of this repository; its behavior is modelled from the
specification's external-interface contract over a simple association-list
filesystem state. Every wrapper definition is translated line by line from
`src/SD.cpp`; the modelled driver definitions carry a
`Modelled from the spec:` doc comment.
-/

set_option autoImplicit false

namespace STM32SD

/-- Result codes of the FatFs driver, as consumed by the wrapper
(`FR_OK`, `FR_EXIST`, `FR_NOT_ENOUGH_CORE` appear in `src/SD.cpp`;
the remaining constructors stand for the other driver failure kinds). -/
inductive FRESULT where
  | FR_OK
  | FR_DISK_ERR
  | FR_NO_FILE
  | FR_NO_PATH
  | FR_EXIST
  | FR_NOT_ENOUGH_CORE
deriving DecidableEq, Repr

open FRESULT

/-- A filesystem path: the character list of a C string. -/
abbrev Path := List Char

/-- Modelled from the spec: one directory entry of the external FAT driver —
either a regular file with its byte content, or a directory (spec section 6,
`EntryStat`). -/
inductive Entry where
  | file (content : List Nat)
  | dir
deriving DecidableEq, Repr

/-- Modelled from the spec: the driver's volume state — a finite map from
paths to entries, as an association list (first match wins). -/
abbrev FS := List (Path × Entry)

/-- Modelled from the spec: entry lookup in the volume state. -/
def lookupFS : FS → Path → Option Entry
  | [], _ => none
  | (q, e) :: rest, p => if q = p then some e else lookupFS rest p

/-- The driver's open-file object `FIL`: `fs` models the `obj.fs` binding
sentinel (0 = unbound, nonzero = bound), `fptr` the read/write pointer and
`content` the bytes of the opened file (`f_size` is its length). -/
structure FIL where
  fs : Nat
  fptr : Nat
  content : List Nat
deriving DecidableEq, Repr

/-- The driver's directory-iterator object `DIR`; only the `obj.fs` binding
sentinel is observable to the wrapper. -/
structure DIR where
  fs : Nat
deriving DecidableEq, Repr

/-- The `File` handle of `src/SD.cpp`: owned path string `_name`
(`none` = C `NULL`), heap-allocated file object `_fil` (`none` = `NULL`),
embedded directory object `_dir`, and the stored driver result `_res`. -/
structure File where
  _name : Option Path
  _fil : Option FIL
  _dir : DIR
  _res : FRESULT
deriving DecidableEq, Repr

/-- Modelled from the spec: FatFs `FA_READ` mode bit (the header defining
the mode constants is not under `src/`). -/
def FA_READ : Nat := 0x01

/-- Modelled from the spec: FatFs `FA_WRITE` mode bit. -/
def FA_WRITE : Nat := 0x02

/-- Modelled from the spec: FatFs `FA_CREATE_ALWAYS` create flag, the flag
`SDClass::open` injects (line 154). -/
def FA_CREATE_ALWAYS : Nat := 0x08

/-- Modelled from the spec: the `FILE_WRITE` mode constant of `STM32SD.h`
(not under `src/`): a mode requesting read and write access, carrying no
create flag of its own — per the spec, creation of absent files is enabled
only by the flag `open` injects. -/
def FILE_WRITE : Nat := FA_READ ||| FA_WRITE

/-- Modelled from the spec: the volume root path returned by
`_fatFs.getRoot()` (code not under `src/`). -/
def rootPath : Path := ['/']

/-- Modelled from the spec: driver `f_stat` — `FR_OK` iff an entry exists
at the path (spec section 6, `EntryStat`). -/
def f_statM (st : FS) (p : Path) : FRESULT :=
  if (lookupFS st p).isSome then FR_OK else FR_NO_FILE

/-- Modelled from the spec: driver `f_open` (spec section 6, `OpenFile`).
Opening an existing file succeeds, truncating it when the mode carries
`FA_CREATE_ALWAYS`; opening an absent path succeeds and creates an empty
file exactly when the mode carries `FA_CREATE_ALWAYS`; a directory path is
not openable as a file. On failure the returned `FIL` is invalidated
(`fs = 0`) and the volume state is unchanged. -/
def f_openM (st : FS) (p : Path) (mode : Nat) : FRESULT × FIL × FS :=
  match lookupFS st p with
  | some (Entry.file c) =>
    if mode &&& FA_CREATE_ALWAYS ≠ 0 then
      (FR_OK, ⟨1, 0, []⟩, (p, Entry.file []) :: st)
    else
      (FR_OK, ⟨1, 0, c⟩, st)
  | some Entry.dir => (FR_NO_FILE, ⟨0, 0, []⟩, st)
  | none =>
    if mode &&& FA_CREATE_ALWAYS ≠ 0 then
      (FR_OK, ⟨1, 0, []⟩, (p, Entry.file []) :: st)
    else
      (FR_NO_FILE, ⟨0, 0, []⟩, st)

/-- Modelled from the spec: driver `f_opendir` (spec section 6,
`OpenDirectoryIterator`) — succeeds and binds the iterator iff the path
names a directory; on failure the `DIR` is invalidated (`fs = 0`). -/
def f_opendirM (st : FS) (p : Path) : FRESULT × DIR :=
  match lookupFS st p with
  | some Entry.dir => (FR_OK, ⟨1⟩)
  | _ => (FR_NO_PATH, ⟨0⟩)

/-- Modelled from the spec: the parent of a path — everything before the
last `/` (used by the modelled `f_mkdir` to refuse multi-level creation). -/
def parentOf (p : Path) : Path :=
  ((p.reverse.dropWhile (fun c => c ≠ '/')).tail).reverse

/-- The volume root as a parent: the empty path or a lone separator. -/
def isRootPath (p : Path) : Bool := p.isEmpty || p == ['/']

/-- Modelled from the spec: driver `f_mkdir` (spec section 6,
`MakeDirectory`) — `FR_EXIST` if an entry already exists at the path,
`FR_OK` (creating the directory) if the parent exists as a directory,
`FR_NO_PATH` otherwise: no recursive parent creation. -/
def f_mkdirM (st : FS) (p : Path) : FRESULT × FS :=
  if (lookupFS st p).isSome then (FR_EXIST, st)
  else if isRootPath (parentOf p) || lookupFS st (parentOf p) == some Entry.dir then
    (FR_OK, (p, Entry.dir) :: st)
  else (FR_NO_PATH, st)

/-- Modelled from the spec: driver `f_lseek` (spec section 6, `Seek`) —
sets the read/write pointer and reports success. The wrapper only calls it
with `pos ≤ size` (line 430). -/
def f_lseekM (fil : FIL) (pos : Nat) : FRESULT × FIL :=
  (FR_OK, { fil with fptr := pos })

/-- Modelled from the spec: driver `f_read` of one byte (spec sections 4.3
and 6, `ReadBytes`) — yields the byte at the current pointer and advances;
per the spec's contract for the one-byte read, the driver reports an error
at end-of-file. -/
def f_readM (fil : FIL) : FRESULT × Nat × FIL :=
  if h : fil.fptr < fil.content.length then
    (FR_OK, fil.content.get ⟨fil.fptr, h⟩, { fil with fptr := fil.fptr + 1 })
  else
    (FR_DISK_ERR, 0, fil)

/-- `SDClass::exists` (lines 96-101): true iff driver `f_stat` reports
`FR_OK`. -/
def SDClass.existsFS (st : FS) (p : Path) : Bool :=
  if f_statM st p ≠ FR_OK then false else true

/-- `SDClass::mkdir` (lines 108-112): true unless the driver result is
neither `FR_OK` nor `FR_EXIST`. -/
def SDClass.mkdirFS (st : FS) (p : Path) : Bool × FS :=
  let r := f_mkdirM st p
  (if r.1 ≠ FR_OK ∧ r.1 ≠ FR_EXIST then false else true, r.2)

/-- Lines 153-155 of `SDClass::open`: the mode actually handed to `f_open`
— `FA_CREATE_ALWAYS` is injected exactly when the requested mode equals
`FILE_WRITE` and no entry exists at the path. -/
def effectiveMode (ex : Bool) (mode : Nat) : Nat :=
  if (mode == FILE_WRITE) && !ex then mode ||| FA_CREATE_ALWAYS else mode

/-- `File::File` (lines 185-190): sets `_name`, `_fil` and `_res`; the
embedded `_dir` object is left uninitialized, modelled by the explicit
garbage argument `gd`. -/
def File.ctor (result : FRESULT) (gd : DIR) : File :=
  { _name := none, _fil := none, _dir := gd, _res := result }

/-- `SDClass::open` (lines 130-168): copy the path, allocate the `FIL`
(its `obj.fs` cleared at line 146, the rest of the allocation `gf` left as
garbage), clear `_dir.obj.fs` (line 147), possibly inject the create flag,
then try the path as a file and fall back to a directory; on total failure
release the path. The modelled driver threads the volume state through. -/
def SDClass.openFS (st : FS) (filepath : Path) (mode : Nat) (gf : FIL) : File × FS :=
  let f0 : File :=
    { _name := some filepath, _fil := some { gf with fs := 0 },
      _dir := { fs := 0 }, _res := FR_OK }
  let mode2 := effectiveMode (SDClass.existsFS st filepath) mode
  let r := f_openM st filepath mode2
  if r.1 = FR_OK then
    ({ f0 with _fil := some r.2.1, _res := r.1 }, r.2.2)
  else
    let r2 := f_opendirM r.2.2 filepath
    if r2.1 = FR_OK then
      ({ f0 with _fil := none, _dir := r2.2, _res := r2.1 }, r.2.2)
    else
      ({ f0 with _fil := none, _dir := r2.2, _name := none, _res := r2.1 }, r.2.2)

/-- `SDClass::openRoot` (lines 180-183): `open` at the volume root with the
default mode `FA_READ`. -/
def SDClass.openRoot (st : FS) (gf : FIL) : File × FS :=
  SDClass.openFS st rootPath FA_READ gf

/-- `File::operator bool` (lines 449-456): invalid iff the path is null, or
no file object and an unbound directory object, or a file object whose
binding sentinel is clear together with an unbound directory object. -/
def File.toBool (f : File) : Bool :=
  !(f._name.isNone
    || (f._fil.isNone && (f._dir.fs == 0))
    || (f._fil.isSome
        && (match f._fil with | some fil => fil.fs == 0 | none => true)
        && (f._dir.fs == 0)))

/-- The C `int8_t` reinterpretation of a stored byte: values at or above
0x80 come back negative. -/
def int8OfByte (b : Nat) : Int :=
  if b % 256 < 128 then ((b % 256 : Nat) : Int) else ((b % 256 : Nat) : Int) - 256

/-- `File::read()` (lines 329-334): one driver read into an `int8_t`; the
sign-reinterpreted byte when the driver reports `FR_OK`, `-1` otherwise. -/
def File.read (fil : FIL) : Int × FIL :=
  let r := f_readM fil
  (if r.1 = FR_OK then int8OfByte r.2.1 else -1, r.2.2)

/-- `File::position` (lines 415-420): the driver's `f_tell`. -/
def File.position (fil : FIL) : Nat := fil.fptr

/-- `File::size` (lines 441-447): the driver's `f_size`. -/
def File.size (fil : FIL) : Nat := fil.content.length

/-- `File::seek` (lines 427-434): call `f_lseek` only when `pos ≤ size()`;
otherwise false without touching the file object. -/
def File.seek (fil : FIL) (pos : Nat) : Bool × FIL :=
  if pos ≤ File.size fil then
    let r := f_lseekM fil pos
    (if r.1 ≠ FR_OK then false else true, r.2)
  else
    (false, fil)

/-- `File::available` (lines 489-493): `uint32_t n = size() - position()`
(32-bit wraparound subtraction), clamped to `0x7FFF`, returned as a C
`int`. -/
def File.availableFn (fil : FIL) : Int :=
  let n : Nat := (File.size fil + 2 ^ 32 - File.position fil) % 2 ^ 32
  ((if n > 0x7FFF then 0x7FFF else n : Nat) : Int)

/-- C `strrchr`: the suffix of the string starting at the LAST occurrence
of the character, or `none` when the character does not occur. -/
def strrchrSuf : Path → Char → Option Path
  | [], _ => none
  | a :: rest, c =>
    match strrchrSuf rest c with
    | some r => some r
    | none => if a = c then some (a :: rest) else none

/-- `File::name` (lines 496-503) as a function of the owned path: point at
the last `/` via `strrchr` (null when absent), step past it when present. -/
def File.name (p : Path) : Option Path :=
  match strrchrSuf p '/' with
  | none => none
  | some suf => if suf.head? = some '/' then some suf.tail else some suf

/-- The driver calls and releases `File::close` performs, in order. -/
inductive CloseOp where
  | sync
  | closeF
  | freeFil
  | closeDir
  | freeName
deriving DecidableEq, Repr

/-- `File::close` (lines 353-384): no-op when `_name` is null; otherwise
sync and close the file object when bound, release it, close the directory
iterator when bound (the driver's `f_closedir` invalidates it), and finally
release and null the path. Emits the list of driver calls and releases
performed. -/
def File.close (f : File) : File × List CloseOp :=
  match f._name with
  | none => (f, [])
  | some _ =>
    let filOps : List CloseOp :=
      match f._fil with
      | some fil =>
        (if fil.fs ≠ 0 then [CloseOp.sync, CloseOp.closeF] else []) ++ [CloseOp.freeFil]
      | none => []
    let dirOps : List CloseOp :=
      if f._dir.fs ≠ 0 then [CloseOp.closeDir] else []
    let f1 : File := { f with _fil := none }
    let f2 : File := if f._dir.fs ≠ 0 then { f1 with _dir := ⟨0⟩ } else f1
    ({ f2 with _name := none }, filOps ++ dirOps ++ [CloseOp.freeName])

/-- Lines 569-577 of `File::openNextFile`: compose the child path, avoiding
a doubled separator when the parent path already ends in `/`. -/
def composePath (nm : Path) (fn : Path) : Path :=
  if nm.length > 0 && nm.getLast? == some '/' then nm ++ fn else nm ++ '/' :: fn

/-- `File::openNextFile` (lines 543-588) over the sequence of driver
`f_readdir` responses (an empty sequence stands for the driver's persistent
end-of-entries answer `FR_OK` with an empty name): stop invalid on a driver
error or end-of-entries, skip names starting with `.`, and on a real entry
either open the composed child path (allocation succeeds, `alloc = true`)
or stop invalid with `FR_NOT_ENOUGH_CORE` (allocation fails). The
uninitialized `_dir` of the local `File()` is the garbage argument `gd`;
`opener` is `SD.open`. -/
def File.openNextFile (nm : Path) (mode : Nat) (gd : DIR) (alloc : Bool)
    (opener : Path → Nat → File) : List (FRESULT × Path) → File
  | [] => { File.ctor FR_OK gd with _res := FR_OK }
  | (res, fn) :: rest =>
    if res ≠ FR_OK ∨ fn = [] then
      { File.ctor FR_OK gd with _res := res }
    else if fn.head? = some '.' then
      File.openNextFile nm mode gd alloc opener rest
    else if alloc then
      opener (composePath nm fn) mode
    else
      { File.ctor FR_OK gd with _res := FR_NOT_ENOUGH_CORE }

/-- The driver-response sequences on which `openNextFile`'s scan reaches a
driver error or end-of-entries (after skipping `.`-entries) rather than a
real entry. -/
def endsIteration : List (FRESULT × Path) → Bool
  | [] => true
  | (res, fn) :: rest =>
    if res ≠ FR_OK ∨ fn = [] then true
    else if fn.head? = some '.' then endsIteration rest
    else false

/-- A file resource is bound when `_fil` is non-null with a set binding
sentinel. -/
def File.fileBound (f : File) : Bool :=
  match f._fil with
  | some fil => fil.fs != 0
  | none => false

/-- A directory resource is bound when the embedded `DIR`'s sentinel is
set. -/
def File.dirBound (f : File) : Bool := f._dir.fs != 0

/-- The handle invariant of the spec: never both resources bound at once. -/
def File.atMostOneBound (f : File) : Bool := !(f.fileBound && f.dirBound)

lemma int8OfByte_small {b : Nat} (h : b < 128) : int8OfByte b = (b : Int) := by
  have hb : b % 256 = b := Nat.mod_eq_of_lt (by omega)
  simp [int8OfByte, hb, h]

/-- C3 counterexample: on a file whose next byte is `0xFF`, the driver read
succeeds and delivers the byte `255`, yet `File::read` returns `-1` — not
the byte read — because the byte is stored into a signed `int8_t`. -/
theorem read_byte_255_counterexample :
    (f_readM ⟨1, 0, [255]⟩).1 = FR_OK ∧
    (f_readM ⟨1, 0, [255]⟩).2.1 = 255 ∧
    (File.read ⟨1, 0, [255]⟩).1 = -1 ∧
    (File.read ⟨1, 0, [255]⟩).1 ≠ 255 := by decide

/-- C3 (amended): `File::read` returns `-1` on any driver error and at
end-of-file, and otherwise returns the byte read reinterpreted as a signed
8-bit value — in particular the byte itself whenever it is below `0x80`. -/
theorem read_error_sentinel_signed_byte (fil : FIL) :
    ((f_readM fil).1 ≠ FR_OK → (File.read fil).1 = -1) ∧
    (File.size fil ≤ File.position fil → (File.read fil).1 = -1) ∧
    ((f_readM fil).1 = FR_OK →
      (File.read fil).1 = int8OfByte (f_readM fil).2.1) ∧
    ((f_readM fil).1 = FR_OK → (f_readM fil).2.1 < 128 →
      (File.read fil).1 = ((f_readM fil).2.1 : Int)) := by
  refine ⟨fun h => ?_, fun h => ?_, fun h => ?_, fun h hb => ?_⟩
  · simp [File.read, h]
  · have hlt : ¬ fil.fptr < fil.content.length := by
      simp [File.size, File.position] at h; omega
    simp [File.read, f_readM, hlt]
  · simp [File.read, h]
  · simp [File.read, h, int8OfByte_small hb]

/-- C3 witness: at end-of-file (empty file) `read` yields `-1`. -/
theorem read_error_sentinel_signed_byte_witness :
    (File.read ⟨1, 0, []⟩).1 = -1 :=
  (read_error_sentinel_signed_byte ⟨1, 0, []⟩).2.1 (by decide)

/-- C4: `File::seek(pos)` succeeds iff `pos ≤ size()`; a successful seek
leaves the position at `pos`, and `pos > size()` fails without touching the
file object (so `pos = size()` is permitted). -/
theorem seek_succeeds_iff_le_size (fil : FIL) (pos : Nat) :
    ((File.seek fil pos).1 = true ↔ pos ≤ File.size fil) ∧
    ((File.seek fil pos).1 = true →
      File.position (File.seek fil pos).2 = pos) ∧
    (File.size fil < pos → (File.seek fil pos).2 = fil) := by
  by_cases h : pos ≤ File.size fil
  · simp [File.seek, f_lseekM, h, File.position]
  · simp [File.seek, h]

/-- C4 witness: seeking to 2 in a 2-byte file (exactly end-of-file)
succeeds and lands at 2; seeking to 3 leaves the file object untouched. -/
theorem seek_succeeds_iff_le_size_witness :
    (File.seek ⟨1, 0, [7, 8]⟩ 2).1 = true ∧
    File.position (File.seek ⟨1, 0, [7, 8]⟩ 2).2 = 2 ∧
    (File.seek ⟨1, 0, [7, 8]⟩ 3).2 = ⟨1, 0, [7, 8]⟩ :=
  ⟨(seek_succeeds_iff_le_size ⟨1, 0, [7, 8]⟩ 2).1.mpr (by decide),
   (seek_succeeds_iff_le_size ⟨1, 0, [7, 8]⟩ 2).2.1
     ((seek_succeeds_iff_le_size ⟨1, 0, [7, 8]⟩ 2).1.mpr (by decide)),
   (seek_succeeds_iff_le_size ⟨1, 0, [7, 8]⟩ 3).2.2 (by decide)⟩

/-- C8: with `position() ≤ size()` (and a size fitting `uint32_t`),
`File::available` is exactly `min(size() - position(), 0x7FFF)` and never
negative. -/
theorem available_min_clamped (fil : FIL)
    (h1 : File.position fil ≤ File.size fil)
    (h2 : File.size fil < 2 ^ 32) :
    File.availableFn fil =
      min ((File.size fil : Int) - (File.position fil : Int)) 0x7FFF ∧
    0 ≤ File.availableFn fil := by
  have hn : (File.size fil + 2 ^ 32 - File.position fil) % 2 ^ 32
      = File.size fil - File.position fil := by omega
  have key : File.availableFn fil =
      ((if File.size fil - File.position fil > 0x7FFF then 0x7FFF
        else File.size fil - File.position fil : Nat) : Int) := by
    unfold File.availableFn
    rw [hn]
  rw [key]
  by_cases hc : File.size fil - File.position fil > 0x7FFF
  · rw [if_pos hc]
    constructor
    · omega
    · decide
  · rw [if_neg hc]
    constructor
    · omega
    · omega

/-- C8 witness: a 3-byte file at position 1 reports 2 available bytes. -/
theorem available_min_clamped_witness :
    File.availableFn ⟨1, 1, [7, 8, 9]⟩ =
      min ((File.size ⟨1, 1, [7, 8, 9]⟩ : Int)
        - (File.position ⟨1, 1, [7, 8, 9]⟩ : Int)) 0x7FFF ∧
    0 ≤ File.availableFn ⟨1, 1, [7, 8, 9]⟩ :=
  available_min_clamped ⟨1, 1, [7, 8, 9]⟩ (by decide) (by decide)

/-- C9: `SDClass::mkdir` reports true exactly when the driver created the
directory (`FR_OK`) or found an entry already there (`FR_EXIST`); in the
modelled driver, creating `/a` twice succeeds both times while creating
`/x/y` without `/x` fails (no recursive parent creation). -/
theorem mkdir_true_iff_created_or_exists (st : FS) (p : Path) :
    ((SDClass.mkdirFS st p).1 = true ↔
      ((f_mkdirM st p).1 = FR_OK ∨ (f_mkdirM st p).1 = FR_EXIST)) ∧
    (SDClass.mkdirFS [] ['/', 'a']).1 = true ∧
    (SDClass.mkdirFS (SDClass.mkdirFS [] ['/', 'a']).2 ['/', 'a']).1 = true ∧
    (SDClass.mkdirFS [] ['/', 'x', '/', 'y']).1 = false := by
  refine ⟨?_, by decide, by decide, by decide⟩
  rcases h : (f_mkdirM st p).1 <;> simp [SDClass.mkdirFS, h]

/-- C9 witness: the boolean characterization at a concrete state — the
first `mkdir("/a")` on an empty volume. -/
theorem mkdir_true_iff_created_or_exists_witness :
    (SDClass.mkdirFS [] ['/', 'a']).1 = true :=
  (mkdir_true_iff_created_or_exists [] ['/', 'a']).2.1

/-- C6: `File::close` is idempotent — after a first `close` the path and
file-object fields are null, and a second `close` returns the handle
unchanged while performing no driver call and no release. The hypothesis is
the reachability invariant that a handle whose path is already null holds
no file object (true of every handle the wrapper produces). -/
theorem close_idempotent (f : File) (h : f._name = none → f._fil = none) :
    File.close (File.close f).1 = ((File.close f).1, []) ∧
    (File.close f).1._name = none ∧
    (File.close f).1._fil = none := by
  cases hn : f._name with
  | none => simp [File.close, hn, h hn]
  | some p => by_cases hd : f._dir.fs = 0 <;> simp [File.close, hn, hd]

/-- C6 witness: closing an open file handle twice — the second close is a
no-op with an empty operation trace. -/
theorem close_idempotent_witness :
    File.close (File.close ⟨some ['/', 'a'], some ⟨1, 0, []⟩, ⟨0⟩, FRESULT.FR_OK⟩).1
      = ((File.close ⟨some ['/', 'a'], some ⟨1, 0, []⟩, ⟨0⟩, FRESULT.FR_OK⟩).1, []) ∧
    (File.close ⟨some ['/', 'a'], some ⟨1, 0, []⟩, ⟨0⟩, FRESULT.FR_OK⟩).1._name = none ∧
    (File.close ⟨some ['/', 'a'], some ⟨1, 0, []⟩, ⟨0⟩, FRESULT.FR_OK⟩).1._fil = none :=
  close_idempotent ⟨some ['/', 'a'], some ⟨1, 0, []⟩, ⟨0⟩, FRESULT.FR_OK⟩ (by decide)

lemma f_openM_fail_state (st : FS) (p : Path) (mode : Nat)
    (h : (f_openM st p mode).1 ≠ FR_OK) : (f_openM st p mode).2.2 = st := by
  cases hl : lookupFS st p with
  | none =>
    by_cases hm : mode &&& FA_CREATE_ALWAYS ≠ 0
    · exact absurd (by simp [f_openM, hl, hm]) h
    · simp [f_openM, hl, hm]
  | some e =>
    cases e with
    | file c =>
      by_cases hm : mode &&& FA_CREATE_ALWAYS ≠ 0
      · exact absurd (by simp [f_openM, hl, hm]) h
      · exact absurd (by simp [f_openM, hl, hm]) h
    | dir => simp [f_openM, hl]

/-- C1: when `SDClass::open`'s attempt to open the path as a file fails and
its fallback attempt to open it as a directory also fails, the returned
handle has its owned path released and nulled, its file object released and
nulled, and evaluates false under `operator bool`. -/
theorem open_total_failure_invalid (st : FS) (p : Path) (mode : Nat) (gf : FIL)
    (h1 : (f_openM st p (effectiveMode (SDClass.existsFS st p) mode)).1 ≠ FR_OK)
    (h2 : (f_opendirM st p).1 ≠ FR_OK) :
    (SDClass.openFS st p mode gf).1._name = none ∧
    (SDClass.openFS st p mode gf).1._fil = none ∧
    File.toBool (SDClass.openFS st p mode gf).1 = false := by
  have hst := f_openM_fail_state st p (effectiveMode (SDClass.existsFS st p) mode) h1
  simp only [SDClass.openFS, hst, if_neg h1, if_neg h2]
  simp [File.toBool]

/-- C1 witness: opening an absent path read-only on an empty volume fails
both as a file and as a directory and yields the canonical invalid handle. -/
theorem open_total_failure_invalid_witness :
    (SDClass.openFS [] ['/', 'q'] FA_READ ⟨0, 0, []⟩).1._name = none ∧
    (SDClass.openFS [] ['/', 'q'] FA_READ ⟨0, 0, []⟩).1._fil = none ∧
    File.toBool (SDClass.openFS [] ['/', 'q'] FA_READ ⟨0, 0, []⟩).1 = false :=
  open_total_failure_invalid [] ['/', 'q'] FA_READ ⟨0, 0, []⟩ (by decide) (by decide)

/-- C2 counterexample: the mode `FA_WRITE` requests write access, the path
is absent, yet `SDClass::open` hands the driver a mode with no create flag
(the injection at line 153 tests equality with `FILE_WRITE`, not the write
bit), so no file is created and the handle is not file-bound. -/
theorem open_write_access_no_create_counterexample :
    FA_WRITE &&& FA_WRITE ≠ 0 ∧
    SDClass.existsFS [] ['/', 'f'] = false ∧
    effectiveMode (SDClass.existsFS [] ['/', 'f']) FA_WRITE &&& FA_CREATE_ALWAYS = 0 ∧
    (SDClass.openFS [] ['/', 'f'] FA_WRITE ⟨0, 0, []⟩).1._fil = none ∧
    lookupFS (SDClass.openFS [] ['/', 'f'] FA_WRITE ⟨0, 0, []⟩).2 ['/', 'f'] = none := by
  decide

/-- C2 (amended): for a mode exactly equal to the `FILE_WRITE` constant,
opening an absent path injects the create flag before the file-open
attempt, creates a new empty file and returns a valid file-bound handle;
when a file already exists at the path, no create flag is injected and the
existing file is opened with its content intact and the volume unchanged. -/
theorem open_file_write_creates_absent (st : FS) (p : Path) (gf : FIL) :
    (lookupFS st p = none →
      (effectiveMode (SDClass.existsFS st p) FILE_WRITE &&& FA_CREATE_ALWAYS ≠ 0 ∧
       (SDClass.openFS st p FILE_WRITE gf).1._fil = some ⟨1, 0, []⟩ ∧
       File.toBool (SDClass.openFS st p FILE_WRITE gf).1 = true ∧
       lookupFS (SDClass.openFS st p FILE_WRITE gf).2 p = some (Entry.file []))) ∧
    (∀ c, lookupFS st p = some (Entry.file c) →
      (effectiveMode (SDClass.existsFS st p) FILE_WRITE = FILE_WRITE ∧
       (SDClass.openFS st p FILE_WRITE gf).1._fil = some ⟨1, 0, c⟩ ∧
       File.toBool (SDClass.openFS st p FILE_WRITE gf).1 = true ∧
       (SDClass.openFS st p FILE_WRITE gf).2 = st)) := by
  constructor
  · intro h
    have hex : SDClass.existsFS st p = false := by
      simp [SDClass.existsFS, f_statM, h]
    have hm : effectiveMode false FILE_WRITE = 11 := by decide
    have hb : (11 : Nat) &&& FA_CREATE_ALWAYS ≠ 0 := by decide
    refine ⟨by rw [hex, hm]; decide, ?_, ?_, ?_⟩ <;>
      simp [SDClass.openFS, hex, hm, hb, f_openM, h, lookupFS, File.toBool]
  · intro c h
    have hex : SDClass.existsFS st p = true := by
      simp [SDClass.existsFS, f_statM, h]
    have hm : effectiveMode true FILE_WRITE = FILE_WRITE := by decide
    have hb : FILE_WRITE &&& FA_CREATE_ALWAYS = 0 := by decide
    refine ⟨by rw [hex, hm], ?_, ?_, ?_⟩ <;>
      simp [SDClass.openFS, hex, hm, hb, f_openM, h, File.toBool]

/-- C2 witness: `open` with `FILE_WRITE` on an absent path of an empty
volume creates the empty file and returns a file-bound handle. -/
theorem open_file_write_creates_absent_witness :
    (SDClass.openFS [] ['/', 'f'] FILE_WRITE ⟨0, 0, []⟩).1._fil = some ⟨1, 0, []⟩ ∧
    lookupFS (SDClass.openFS [] ['/', 'f'] FILE_WRITE ⟨0, 0, []⟩).2 ['/', 'f']
      = some (Entry.file []) :=
  ⟨((open_file_write_creates_absent [] ['/', 'f'] ⟨0, 0, []⟩).1 (by decide)).2.1,
   ((open_file_write_creates_absent [] ['/', 'f'] ⟨0, 0, []⟩).1 (by decide)).2.2.2⟩

/-- C5: `File::openNextFile` returns an invalid (falsy) handle both when
the driver's entry scan ends (error or end-of-entries, after skipping
`.`-entries) and when composing the child path fails for lack of memory; in
the latter case the stored result is the distinct `FR_NOT_ENOUGH_CORE`
code. -/
theorem openNextFile_exhausted_or_oom_invalid (nm : Path) (mode : Nat) (gd : DIR)
    (alloc : Bool) (opener : Path → Nat → File) (entries : List (FRESULT × Path)) :
    (endsIteration entries = true →
      File.toBool (File.openNextFile nm mode gd alloc opener entries) = false) ∧
    (endsIteration entries = false →
      File.toBool (File.openNextFile nm mode gd false opener entries) = false ∧
      (File.openNextFile nm mode gd false opener entries)._res = FR_NOT_ENOUGH_CORE) := by
  induction entries with
  | nil =>
    constructor
    · intro _
      simp [File.openNextFile, File.ctor, File.toBool]
    · intro h
      simp [endsIteration] at h
  | cons e rest ih =>
    obtain ⟨res, fn⟩ := e
    by_cases hend : res ≠ FR_OK ∨ fn = []
    · constructor
      · intro _
        simp [File.openNextFile, hend, File.ctor, File.toBool]
      · intro h
        simp [endsIteration, hend] at h
    · by_cases hdot : fn.head? = some '.'
      · constructor
        · intro h
          simp only [endsIteration, if_neg hend, if_pos hdot] at h
          simpa [File.openNextFile, hend, hdot] using ih.1 h
        · intro h
          simp only [endsIteration, if_neg hend, if_pos hdot] at h
          simpa [File.openNextFile, hend, hdot] using ih.2 h
      · constructor
        · intro h
          simp [endsIteration, hend, hdot] at h
        · intro _
          simp [File.openNextFile, hend, hdot, File.ctor, File.toBool]

/-- C5 witness: an immediate end-of-entries answer yields an invalid
handle, and a real entry under allocation failure yields an invalid handle
carrying `FR_NOT_ENOUGH_CORE`. -/
theorem openNextFile_exhausted_or_oom_invalid_witness :
    File.toBool (File.openNextFile ['/'] FA_READ ⟨0⟩ true
      (fun _ _ => File.ctor FRESULT.FR_OK ⟨0⟩) [(FRESULT.FR_OK, [])]) = false ∧
    File.toBool (File.openNextFile ['/'] FA_READ ⟨0⟩ false
      (fun _ _ => File.ctor FRESULT.FR_OK ⟨0⟩) [(FRESULT.FR_OK, ['a'])]) = false ∧
    (File.openNextFile ['/'] FA_READ ⟨0⟩ false
      (fun _ _ => File.ctor FRESULT.FR_OK ⟨0⟩) [(FRESULT.FR_OK, ['a'])])._res
      = FRESULT.FR_NOT_ENOUGH_CORE :=
  ⟨(openNextFile_exhausted_or_oom_invalid ['/'] FA_READ ⟨0⟩ true
      (fun _ _ => File.ctor FRESULT.FR_OK ⟨0⟩) [(FRESULT.FR_OK, [])]).1 (by decide),
   ((openNextFile_exhausted_or_oom_invalid ['/'] FA_READ ⟨0⟩ true
      (fun _ _ => File.ctor FRESULT.FR_OK ⟨0⟩) [(FRESULT.FR_OK, ['a'])]).2 (by decide)).1,
   ((openNextFile_exhausted_or_oom_invalid ['/'] FA_READ ⟨0⟩ true
      (fun _ _ => File.ctor FRESULT.FR_OK ⟨0⟩) [(FRESULT.FR_OK, ['a'])]).2 (by decide)).2⟩

lemma openFS_atMostOneBound (st : FS) (p : Path) (mode : Nat) (gf : FIL) :
    File.atMostOneBound (SDClass.openFS st p mode gf).1 = true := by
  by_cases h1 : (f_openM st p (effectiveMode (SDClass.existsFS st p) mode)).1 = FR_OK
  · simp [SDClass.openFS, h1, File.atMostOneBound, File.fileBound, File.dirBound]
  · by_cases h2 : (f_opendirM
        (f_openM st p (effectiveMode (SDClass.existsFS st p) mode)).2.2 p).1 = FR_OK <;>
      simp [SDClass.openFS, h1, h2, File.atMostOneBound, File.fileBound, File.dirBound]

lemma openNextFile_atMostOneBound (nm : Path) (mode : Nat) (gd : DIR) (alloc : Bool)
    (st : FS) (gf : FIL) (entries : List (FRESULT × Path)) :
    File.atMostOneBound (File.openNextFile nm mode gd alloc
      (fun q m => (SDClass.openFS st q m gf).1) entries) = true := by
  induction entries with
  | nil => simp [File.openNextFile, File.ctor, File.atMostOneBound, File.fileBound]
  | cons e rest ih =>
    obtain ⟨res, fn⟩ := e
    by_cases hend : res ≠ FR_OK ∨ fn = []
    · simp [File.openNextFile, hend, File.ctor, File.atMostOneBound, File.fileBound]
    · by_cases hdot : fn.head? = some '.'
      · simpa [File.openNextFile, hend, hdot] using ih
      · by_cases ha : alloc = true
        · simpa [File.openNextFile, hend, hdot, ha] using
            openFS_atMostOneBound st (composePath nm fn) mode gf
        · simp [File.openNextFile, hend, hdot, ha, File.ctor, File.atMostOneBound,
            File.fileBound]

lemma close_atMostOneBound (f : File) (h : File.atMostOneBound f = true) :
    File.atMostOneBound (File.close f).1 = true := by
  cases hn : f._name with
  | none => simpa [File.close, hn] using h
  | some p =>
    by_cases hd : f._dir.fs = 0 <;>
      simp [File.close, hn, hd, File.atMostOneBound, File.fileBound, File.dirBound]

/-- C7: every handle produced by `SDClass::open`, `openRoot`,
`openNextFile` or the default constructor has at most one of its file and
directory resources bound, and `File::close` preserves that invariant. -/
theorem handle_at_most_one_resource_bound (st st2 : FS) (p nm : Path)
    (mode mode2 : Nat) (gf gf2 : FIL) (gd gd2 : DIR) (r : FRESULT) (alloc : Bool)
    (entries : List (FRESULT × Path)) (f : File) :
    File.atMostOneBound (SDClass.openFS st p mode gf).1 = true ∧
    File.atMostOneBound (SDClass.openRoot st gf).1 = true ∧
    File.atMostOneBound (File.ctor r gd) = true ∧
    File.atMostOneBound (File.openNextFile nm mode2 gd2 alloc
      (fun q m => (SDClass.openFS st2 q m gf2).1) entries) = true ∧
    (File.atMostOneBound f = true → File.atMostOneBound (File.close f).1 = true) :=
  ⟨openFS_atMostOneBound st p mode gf,
   openFS_atMostOneBound st rootPath FA_READ gf,
   by simp [File.ctor, File.atMostOneBound, File.fileBound],
   openNextFile_atMostOneBound nm mode2 gd2 alloc st2 gf2 entries,
   close_atMostOneBound f⟩

/-- C7 witness: the invariant at concrete inputs, including closing a
file-bound handle. -/
theorem handle_at_most_one_resource_bound_witness :
    File.atMostOneBound (SDClass.openFS [] ['/', 'a'] FA_READ ⟨0, 0, []⟩).1 = true ∧
    File.atMostOneBound
      (File.close ⟨some ['/', 'a'], some ⟨1, 0, []⟩, ⟨0⟩, FRESULT.FR_OK⟩).1 = true :=
  ⟨(handle_at_most_one_resource_bound [] [] ['/', 'a'] ['/'] FA_READ FA_READ
      ⟨0, 0, []⟩ ⟨0, 0, []⟩ ⟨0⟩ ⟨0⟩ FRESULT.FR_OK true []
      ⟨some ['/', 'a'], some ⟨1, 0, []⟩, ⟨0⟩, FRESULT.FR_OK⟩).1,
   (handle_at_most_one_resource_bound [] [] ['/', 'a'] ['/'] FA_READ FA_READ
      ⟨0, 0, []⟩ ⟨0, 0, []⟩ ⟨0⟩ ⟨0⟩ FRESULT.FR_OK true []
      ⟨some ['/', 'a'], some ⟨1, 0, []⟩, ⟨0⟩, FRESULT.FR_OK⟩).2.2.2.2 (by decide)⟩

lemma strrchrSuf_none_iff (p : Path) (c : Char) :
    strrchrSuf p c = none ↔ c ∉ p := by
  induction p with
  | nil => simp [strrchrSuf]
  | cons a rest ih =>
    simp only [strrchrSuf]
    cases hr : strrchrSuf rest c with
    | some r =>
      have hc : c ∈ rest := by
        by_contra hc
        simp [ih.mpr hc] at hr
      simp [hc]
    | none =>
      by_cases hac : a = c
      · simp [hac]
      · have hca : ¬ c = a := fun hcc => hac hcc.symm
        simp [hac, List.mem_cons, ih.mp hr, hca]

lemma strrchrSuf_some (p : Path) (c : Char) (suf : Path)
    (h : strrchrSuf p c = some suf) :
    ∃ pre t, suf = c :: t ∧ p = pre ++ c :: t ∧ c ∉ t := by
  induction p generalizing suf with
  | nil => simp [strrchrSuf] at h
  | cons a rest ih =>
    simp only [strrchrSuf] at h
    cases hr : strrchrSuf rest c with
    | some r =>
      rw [hr] at h
      obtain ⟨pre, t, h1, h2, h3⟩ := ih r hr
      refine ⟨a :: pre, t, ?_, by simp [h2], h3⟩
      simpa [h1] using h.symm
    | none =>
      rw [hr] at h
      by_cases hac : a = c
      · rw [if_pos hac] at h
        refine ⟨[], rest, ?_, ?_, (strrchrSuf_none_iff rest c).mp hr⟩
        · rw [← Option.some_inj.mp h, hac]
        · simp [hac]
      · simp [hac] at h

/-- C10: for a non-null owned path, `File::name` returns the portion of the
path immediately following the last `/` (the returned portion is preceded
by a `/` and itself contains none), and returns null when the path contains
no `/` at all. -/
theorem name_after_last_separator (p : Path) :
    ('/' ∉ p → File.name p = none) ∧
    ('/' ∈ p → ∃ pre r, File.name p = some r ∧ p = pre ++ '/' :: r ∧ '/' ∉ r) := by
  constructor
  · intro h
    simp [File.name, (strrchrSuf_none_iff p '/').mpr h]
  · intro h
    cases hs : strrchrSuf p '/' with
    | none => exact absurd ((strrchrSuf_none_iff p '/').mp hs) (by simpa using h)
    | some suf =>
      obtain ⟨pre, t, h1, h2, h3⟩ := strrchrSuf_some p '/' suf hs
      exact ⟨pre, t, by simp [File.name, hs, h1], h2, h3⟩

/-- C10 witness: the basename of `a/b` and the null answer on a
separator-free path. -/
theorem name_after_last_separator_witness :
    (∃ pre r, File.name ['a', '/', 'b'] = some r ∧
      ['a', '/', 'b'] = pre ++ '/' :: r ∧ '/' ∉ r) ∧
    File.name ['a', 'b'] = none :=
  ⟨(name_after_last_separator ['a', '/', 'b']).2 (by decide),
   (name_after_last_separator ['a', 'b']).1 (by decide)⟩

end STM32SD
